import Mathlib

/-!
Verification development for the NewICD3 user-space device simulation
framework.  The definitions below are a shallow embedding of the C code in
`src/src/interface_layer/driver_interface.c` (the MMIO trap engine, the
device registry, the programmatic register access API and the in-process
fallback responder of the model transport).  Machine integers are modelled
as `Nat` with explicit `% 2^w` reductions at the points where the C code
performs fixed-width arithmetic or casts.
-/

namespace NewICD3

/-! ## Saved-context register indices

The values of the glibc `REG_*` constants for x86-64 (`sys/ucontext.h`),
used by `segv_handler` to index `uc_mcontext.gregs`. -/

def REG_R8 : Nat := 0
def REG_R9 : Nat := 1
def REG_R10 : Nat := 2
def REG_R11 : Nat := 3
def REG_R12 : Nat := 4
def REG_R13 : Nat := 5
def REG_R14 : Nat := 6
def REG_R15 : Nat := 7
def REG_RDI : Nat := 8
def REG_RSI : Nat := 9
def REG_RBP : Nat := 10
def REG_RBX : Nat := 11
def REG_RDX : Nat := 12
def REG_RAX : Nat := 13
def REG_RCX : Nat := 14
def REG_RSP : Nat := 15
def REG_RIP : Nat := 16

/-- Protocol constants.  The header `interface_layer.h` is not present under
`src/`; the numeric values are those fixed by the wire table of the spec
(command `1=READ, 2=WRITE`, result `0=SUCCESS`), which every use in the C
sources is consistent with. -/
def CMD_READ : Nat := 1

def CMD_WRITE : Nat := 2

def RESULT_SUCCESS : Nat := 0

def MAX_DEVICES : Nat := 16

/-- One `protocol_message_t` frame.  `data` holds the little-endian value of
the 64-byte `data` array. -/
structure Msg where
  device_id : Nat
  command : Nat
  address : Nat
  length : Nat
  data : Nat
  result : Nat
deriving DecidableEq

/-- One `device_info_t` registry entry (the fields the embedded code uses). -/
structure Device where
  device_id : Nat
  base_address : Nat
  size : Nat
deriving DecidableEq

/-- The saved CPU context (`uc_mcontext.gregs`), a map from a glibc register
index to the 64-bit register value. -/
def Regs : Type := Nat → Nat

/-- Write one slot of the saved context. -/
def setReg (r : Regs) (i v : Nat) : Regs := fun j => if j = i then v else r j

/-- The device-window membership test the C code performs:
`addr >= base_address && addr < base_address + size`, where the sum is
computed in `uint32_t` arithmetic. -/
def inWindow (d : Device) (addr : Nat) : Bool :=
  decide (d.base_address ≤ addr) && decide (addr < (d.base_address + d.size) % 2 ^ 32)

/-- The linear device scan every handler path performs: the first live entry
whose window contains the address. -/
def lookup (ds : List Device) (addr : Nat) : Option Device :=
  ds.find? (fun d => inWindow d addr)

/-! ## Model transport (fallback responder)

`send_message_to_model` tries a socket; when no model peer is reachable it
falls back to the deterministic in-process responder (`simulation_fallback`
label in the C).  The fallback copies the request into the response, forces
`result = RESULT_SUCCESS`, and for a READ overwrites the low 4 data bytes
with the simulated value. -/

def simulation_fallback (m : Msg) : Msg :=
  if m.command = CMD_READ then
    let simulated_data : Nat :=
      if m.address % 256 = 0x04 then 0x00000001 else 0xDEADBEEF
    Msg.mk m.device_id m.command m.address m.length
      (m.data / 2 ^ 32 * 2 ^ 32 + simulated_data) RESULT_SUCCESS
  else
    Msg.mk m.device_id m.command m.address m.length m.data RESULT_SUCCESS

/-- `send_message_to_model` in the unreachable-model case: the response is
produced by the fallback responder and the return code is 0 (success). -/
def send_message_to_model_fallback (m : Msg) : Msg × Int :=
  (simulation_fallback m, 0)

/-- A transport abstracts one `send_message_to_model` exchange: `none` means
the call returned nonzero (failure), `some resp` means it returned 0 and
filled in `resp`. -/
def Transport : Type := Msg → Option Msg

/-- The transport in the unreachable-model configuration: every exchange
succeeds with the fallback responder's answer. -/
def fallbackTransport : Transport := fun m => some (simulation_fallback m)

/-! ## Device registry -/

/-- `register_device(device_id, base_address, size)`.  The C checks only
that the registry is not full, then `mmap`s a reservation; `reserve_ok`
models whether that `mmap` succeeds.  On success the entry is appended
(stored into `devices[device_count]`).  `none` models the `-1` error
return (no entry installed). -/
def register_device (reserve_ok : Bool) (ds : List Device)
    (device_id base_address size : Nat) : Option (List Device) :=
  if MAX_DEVICES ≤ ds.length then none
  else if reserve_ok = false then none
  else some (ds ++ [Device.mk (device_id % 2 ^ 32) (base_address % 2 ^ 32) (size % 2 ^ 32)])

/-- The scan of `unregister_device`: index of the first live entry with the
given id. -/
def unregister_find : List Device → Nat → Option Nat
  | [], _ => none
  | d :: rest, device_id =>
    if d.device_id = device_id then some 0
    else (unregister_find rest device_id).map (· + 1)

/-- `unregister_device(device_id)`: find the first live entry with this id,
move the last entry into its slot and shrink the registry; `none` models
the `-1` (not found) return. -/
def unregister_device (ds : List Device) (device_id : Nat) : Option (List Device) :=
  match unregister_find ds device_id with
  | none => none
  | some i => some ((ds.set i (ds.getLastD (Device.mk 0 0 0))).dropLast)

/-! ## Programmatic bypass API -/

/-- `read_register(address, size)`.  Scans the registry; for a containing
device it sends a READ and, if the exchange succeeds, returns the low four
response data bytes; on exchange failure it keeps scanning.  Falls off the
end with return value 0.  The first component collects the requests handed
to the transport, in order. -/
def read_register (transport : Transport) (ds : List Device)
    (address size : Nat) : List Msg × Nat :=
  match ds with
  | [] => ([], 0)
  | d :: rest =>
    if inWindow d address then
      let message := Msg.mk d.device_id CMD_READ address size 0 0
      match transport message with
      | some response => ([message], response.data % 2 ^ 32)
      | none =>
        let r := read_register transport rest address size
        (message :: r.1, r.2)
    else read_register transport rest address size

/-- `write_register(address, data, size)`.  Scans the registry; at the first
containing device it sends a WRITE and returns that exchange's return code;
with no containing device it returns `-1`.  The first component collects the
requests handed to the transport. -/
def write_register (transport : Transport) (ds : List Device)
    (address data size : Nat) : List Msg × Int :=
  match ds with
  | [] => ([], -1)
  | d :: rest =>
    if inWindow d address then
      let message := Msg.mk d.device_id CMD_WRITE address size (data % 2 ^ (8 * size)) 0
      match transport message with
      | some _ => ([message], 0)
      | none => ([message], -1)
    else write_register transport rest address data size

/-! ## Instruction length (`get_instruction_length`)

The instruction bytes are a `List Nat`; reading past the end yields 0 (an
inert byte value).  The legacy-prefix loop is structural recursion on the
list, exactly mirroring the C `while` walk. -/

/-- The eleven legacy prefix bytes the C decoder skips. -/
def isLegacyByte (b : Nat) : Bool :=
  b = 0xF0 || b = 0xF2 || b = 0xF3 || b = 0x2E || b = 0x36 || b = 0x3E ||
  b = 0x26 || b = 0x64 || b = 0x65 || b = 0x66 || b = 0x67

/-- Number of leading legacy-prefix bytes (the `length` accumulated by the
prefix loop). -/
def countLegacy : List Nat → Nat
  | [] => 0
  | b :: rest => if isLegacyByte b then countLegacy rest + 1 else 0

/-- The byte stream with the leading legacy prefixes consumed. -/
def afterLegacy : List Nat → List Nat
  | [] => []
  | b :: rest => if isLegacyByte b then afterLegacy rest else b :: rest

/-- `get_instruction_length`: legacy prefixes, optional REX, 1–3 opcode
bytes, then — for the opcodes the table knows — ModR/M, SIB, displacement
and immediate.  The `0x66` scan for the `C7` immediate inspects the bytes
strictly before `inst_ptr - 1`, i.e. the first `P + R + opLen + sibLen`
bytes of the instruction. -/
def get_instruction_length (inst : List Nat) : Nat :=
  let P := countLegacy inst
  let r1 := afterLegacy inst
  let hasRex : Bool := decide (0x40 ≤ r1.getD 0 0) && decide (r1.getD 0 0 ≤ 0x4F)
  let R := if hasRex then 1 else 0
  let r2 := if hasRex then r1.tail else r1
  let op1 := r2.getD 0 0
  let opLen := if op1 = 0x0F then
      (if r2.getD 1 0 = 0x38 ∨ r2.getD 1 0 = 0x3A then 3 else 2)
    else 1
  let op := if op1 = 0x0F then r2.getD 1 0 else op1
  let modrm := r2.getD opLen 0
  let md := modrm / 64 % 4
  let rm := modrm % 8
  let hasModrm : Bool :=
    op = 0x88 || op = 0x89 || op = 0x8A || op = 0x8B || op = 0xC6 || op = 0xC7 ||
    op = 0xB6 || op = 0xB7 || op = 0xBE || op = 0xBF
  if hasModrm then
    let sibLen := if md ≠ 3 ∧ rm = 4 then 1 else 0
    let dispLen := if md = 1 then 1 else if md = 2 ∨ (md = 0 ∧ rm = 5) then 4 else 0
    let immLen :=
      if op = 0xC6 then 1
      else if op = 0xC7 then
        (if (inst.take (P + R + opLen + 1 + sibLen - 1)).any (fun b => b = 0x66)
         then 2 else 4)
      else 0
    P + R + opLen + 1 + sibLen + dispLen + immLen
  else
    P + R + opLen

/-- The C `switch` from a ModR/M `reg` field (REX.R-extended) to the glibc
saved-context register index. -/
def regIndexMap : Nat → Nat
  | 0 => REG_RAX
  | 1 => REG_RCX
  | 2 => REG_RDX
  | 3 => REG_RBX
  | 4 => REG_RSP
  | 5 => REG_RBP
  | 6 => REG_RSI
  | 7 => REG_RDI
  | 8 => REG_R8
  | 9 => REG_R9
  | 10 => REG_R10
  | 11 => REG_R11
  | 12 => REG_R12
  | 13 => REG_R13
  | 14 => REG_R14
  | 15 => REG_R15
  | _ => REG_RAX

/-- `get_destination_register_from_modrm`: re-walk the prefixes (this loop
includes `0x66`), capture an optional REX byte, skip one or two opcode
bytes, and map the (REX.R-extended) `reg` field of the ModR/M byte. -/
def get_destination_register_from_modrm (inst : List Nat) (is_two_byte_opcode : Bool) : Nat :=
  let r1 := afterLegacy inst
  let b := r1.getD 0 0
  let rex := if 0x40 ≤ b ∧ b ≤ 0x4F then b else 0
  let r2 := if 0x40 ≤ b ∧ b ≤ 0x4F then r1.tail else r1
  let r3 := r2.tail
  let r4 := if is_two_byte_opcode then r3.tail else r3
  let modrm := r4.getD 0 0
  let reg_field := modrm / 8 % 8 + (if rex / 4 % 2 = 1 then 8 else 0)
  regIndexMap reg_field

/-! ## The access-classification block of `segv_handler`

Lines 441–568: skip prefixes (this loop leaves out `0x66`, which is then
consumed once and recorded), skip REX, read the opcode byte(s) and decide
direction, operand size and — for stores — the outgoing data. -/

/-- Decoder output of the classification block. -/
structure Decoded where
  is_write : Bool
  access_size : Nat
  write_data : Nat
  is_two_byte_opcode : Bool
deriving DecidableEq

/-- The prefix bytes of the classification skip loop (all legacy prefixes
except `0x66`, which is handled separately). -/
def isSkipByte (b : Nat) : Bool :=
  b = 0xF0 || b = 0xF2 || b = 0xF3 || b = 0x2E || b = 0x36 || b = 0x3E ||
  b = 0x26 || b = 0x64 || b = 0x65 || b = 0x67

/-- The byte stream after the classification skip loop. -/
def afterSkip : List Nat → List Nat
  | [] => []
  | b :: rest => if isSkipByte b then afterSkip rest else b :: rest

/-- Classification of a (non-REP, non-VEX) faulting instruction: direction,
access size, write data (stores read the accumulator or the trailing
immediate bytes), and whether the opcode was `0x0F`-prefixed.  Unknown
opcodes fall into the default branches: a 4-byte read. -/
def decode_access (inst : List Nat) (regs : Regs) : Decoded :=
  let len := get_instruction_length inst
  let r1 := afterSkip inst
  let has66 : Bool := r1.getD 0 0 = 0x66
  let r2 := if r1.getD 0 0 = 0x66 then r1.tail else r1
  let b := r2.getD 0 0
  let r3 := if 0x40 ≤ b ∧ b ≤ 0x4F then r2.tail else r2
  let first_opcode := r3.getD 0 0
  if first_opcode = 0x0F then
    let second_opcode := r3.getD 1 0
    if second_opcode = 0xB6 then Decoded.mk false 1 0 true
    else if second_opcode = 0xB7 then Decoded.mk false 2 0 true
    else if second_opcode = 0xBE then Decoded.mk false 1 0 true
    else if second_opcode = 0xBF then Decoded.mk false 2 0 true
    else Decoded.mk false 4 0 true
  else
    if first_opcode = 0x8A then Decoded.mk false 1 0 false
    else if first_opcode = 0x8B then Decoded.mk false (if has66 then 2 else 4) 0 false
    else if first_opcode = 0x88 then Decoded.mk true 1 (regs REG_RAX % 2 ^ 8) false
    else if first_opcode = 0x89 then
      (if has66 then Decoded.mk true 2 (regs REG_RAX % 2 ^ 16) false
       else Decoded.mk true 4 (regs REG_RAX % 2 ^ 32) false)
    else if first_opcode = 0xC6 then
      Decoded.mk true 1 (inst.getD (len - 1) 0) false
    else if first_opcode = 0xC7 then
      (if has66 then
        Decoded.mk true 2 (inst.getD (len - 2) 0 + 2 ^ 8 * inst.getD (len - 1) 0) false
       else
        Decoded.mk true 4
          (inst.getD (len - 4) 0 + 2 ^ 8 * inst.getD (len - 3) 0 +
           2 ^ 16 * inst.getD (len - 2) 0 + 2 ^ 24 * inst.getD (len - 1) 0) false)
    else Decoded.mk false 4 0 false

/-- The READ writeback switch (lines 612–624): update the destination slot
according to the access size, in 64-bit arithmetic. -/
def read_writeback (regs : Regs) (dest_reg : Nat) (read_data : Nat) (access_size : Nat) :
    Regs :=
  let old := regs dest_reg % 2 ^ 64
  if access_size = 1 then setReg regs dest_reg (old / 2 ^ 8 * 2 ^ 8 + read_data % 2 ^ 8)
  else if access_size = 2 then setReg regs dest_reg (old / 2 ^ 16 * 2 ^ 16 + read_data % 2 ^ 16)
  else if access_size = 4 then setReg regs dest_reg (read_data % 2 ^ 32)
  else setReg regs dest_reg read_data

/-! ## The trap engine (`segv_handler`)

The handler is a function of the abstract transport and the registry, the
faulting instruction bytes, the faulting address, and the saved context.
Result: `none` models `exit(1)`; `some regs` models returning with the
mutated context; the message list collects every request handed to the
transport, in order. -/

/-- The bulk-write loop of the REP STOS path: emit `fuel` stores of size `s`
starting at element `j`, stopping after a transport failure or a non-success
response. -/
def rep_stos_loop (transport : Transport) (d : Device) (s value dest : Nat) :
    Nat → Nat → List Msg
  | _, 0 => []
  | j, fuel + 1 =>
    let write_addr := (dest + j * s) % 2 ^ 32
    let write_val := if s = 1 then value % 2 ^ 8
      else if s = 2 then value % 2 ^ 16 else value % 2 ^ 32
    let message := Msg.mk d.device_id CMD_WRITE write_addr s write_val 0
    match transport message with
    | none => [message]
    | some response =>
      if response.result ≠ RESULT_SUCCESS then [message]
      else message :: rep_stos_loop transport d s value dest (j + 1) fuel

/-- The REP STOS path (lines 357–439): clamp the count against the device
window bound (in the C's `uint64`/`uint32` arithmetic), run the bulk-write
loop, then set RCX to 0, RDI past the written range, and advance RIP. -/
def handle_rep_stos (transport : Transport) (devices : List Device)
    (inst : List Nat) (regs : Regs) (stos_size : Nat) : Option Regs × List Msg :=
  let count0 := regs REG_RCX
  let dest_addr := regs REG_RDI
  let value := regs REG_RAX
  match lookup devices dest_addr with
  | none => (none, [])
  | some d =>
    let bound := (d.base_address + d.size) % 2 ^ 32
    let end_addr := (dest_addr + count0 * stos_size) % 2 ^ 64
    let count := if bound < end_addr
      then (2 ^ 64 + bound - dest_addr) % 2 ^ 64 / stos_size
      else count0
    let msgs := rep_stos_loop transport d stos_size value dest_addr 0 count
    (some (setReg (setReg (setReg regs REG_RCX 0)
        REG_RDI ((dest_addr + count * stos_size) % 2 ^ 64))
        REG_RIP ((regs REG_RIP + get_instruction_length inst) % 2 ^ 64)),
     msgs)

/-- The byte-wise simulation loop of the VEX/AVX path, with its in-loop
bounds check. -/
def avx_memset_loop (transport : Transport) (d : Device) (rdi value : Nat) :
    Nat → Nat → List Msg
  | _, 0 => []
  | j, fuel + 1 =>
    let write_addr := (rdi + j) % 2 ^ 32
    if (d.base_address + d.size) % 2 ^ 32 ≤ write_addr then []
    else
      let message := Msg.mk d.device_id CMD_WRITE write_addr 1 (value % 2 ^ 8) 0
      match transport message with
      | none => [message]
      | some _ => message :: avx_memset_loop transport d rdi value (j + 1) fuel

/-- The single-access path: classify, look up the owning device, exchange
one request, apply the READ writeback on a successful response, advance RIP.
An unmapped fault is `exit(1)` (`none`); a failed exchange returns with the
context untouched. -/
def handle_single_access (transport : Transport) (devices : List Device)
    (inst : List Nat) (fault_addr : Nat) (regs : Regs) : Option Regs × List Msg :=
  let dec := decode_access inst regs
  match lookup devices fault_addr with
  | none => (none, [])
  | some d =>
    let message := Msg.mk d.device_id (if dec.is_write then CMD_WRITE else CMD_READ)
      (fault_addr % 2 ^ 32) dec.access_size
      (if dec.is_write then dec.write_data % 2 ^ (8 * dec.access_size) else 0) 0
    match transport message with
    | none => (some regs, [message])
    | some response =>
      let regs1 :=
        if dec.is_write = false ∧ response.result = RESULT_SUCCESS then
          read_writeback regs
            (get_destination_register_from_modrm inst dec.is_two_byte_opcode)
            (response.data % 2 ^ (8 * dec.access_size)) dec.access_size
        else regs
      (some (setReg regs1 REG_RIP
          ((regs1 REG_RIP + get_instruction_length inst) % 2 ^ 64)),
       [message])

/-- The VEX (`0xC5`) path: at the first device containing the fault address,
a memset-looking context (`0 < RCX ≤ 1024`, `RDI = fault address`) is
simulated as byte writes and the context updated; otherwise the handler
falls through to the single-access path. -/
def handle_avx (transport : Transport) (devices : List Device)
    (inst : List Nat) (fault_addr : Nat) (regs : Regs) : Option Regs × List Msg :=
  let rcx_val := regs REG_RCX
  let rdi_val := regs REG_RDI
  match lookup devices fault_addr with
  | some d =>
    if 0 < rcx_val ∧ rcx_val ≤ 1024 ∧ rdi_val = fault_addr then
      let value := regs REG_RAX % 2 ^ 8
      let msgs := avx_memset_loop transport d rdi_val value 0 rcx_val
      (some (setReg (setReg (setReg regs REG_RCX 0)
          REG_RDI ((rdi_val + rcx_val) % 2 ^ 64))
          REG_RIP ((regs REG_RIP + get_instruction_length inst) % 2 ^ 64)),
       msgs)
    else handle_single_access transport devices inst fault_addr regs
  | none => handle_single_access transport devices inst fault_addr regs

/-- REP STOS detection (lines 231–261): `F3`, optional `66`, then `AA`
(size 1) or `AB` (size 2 with `66`, else 4).  Returns the store size. -/
def rep_stos_size (inst : List Nat) : Option Nat :=
  if inst.getD 0 0 = 0xF3 then
    if inst.getD 1 0 = 0x66 then
      (if inst.getD 2 0 = 0xAA then some 1
       else if inst.getD 2 0 = 0xAB then some 2
       else none)
    else if inst.getD 1 0 = 0xAA then some 1
    else if inst.getD 1 0 = 0xAB then some 4
    else none
  else none

/-- `segv_handler`: dispatch between the VEX path, the REP STOS path and the
single-access path. -/
def segv_handler (transport : Transport) (devices : List Device)
    (inst : List Nat) (fault_addr : Nat) (regs : Regs) : Option Regs × List Msg :=
  if inst.getD 0 0 = 0xC5 then handle_avx transport devices inst fault_addr regs
  else
    match rep_stos_size inst with
    | some s => handle_rep_stos transport devices inst regs s
    | none => handle_single_access transport devices inst fault_addr regs

/-! ## Legal encodings of the supported opcode set

For the length claim we need an independent notion of the true machine
instruction length.  Modelled from the spec: a legal encoding is any order
of legacy prefixes, an optional REX byte, an opcode of the supported set,
then (for the `/r` forms) ModR/M, SIB exactly when `mod ≠ 3 ∧ rm = 4`,
displacement of the architecturally mandated width (0, 1 or 4 bytes;
4 bytes also for `mod = 0 ∧ rm = 5` RIP-relative and for the SIB form with
`base = 5` under `mod = 0`), and the immediate the opcode requires (for
`C7` 2 bytes under an operand-size prefix, 4 otherwise — with REX.W keeping
a 4-byte immediate).  The byte string of the encoding is `Enc.encode`; its
true machine length is by construction `(Enc.encode e).length`. -/

/-- The supported opcode set. -/
inductive Opc
  | o8A | o8B | o88 | o89 | oC6 | oC7 | oB6 | oB7 | oBE | oBF | oAA | oAB
deriving DecidableEq

/-- Opcode byte sequence (after prefixes). -/
def Opc.bytes : Opc → List Nat
  | .o8A => [0x8A]
  | .o8B => [0x8B]
  | .o88 => [0x88]
  | .o89 => [0x89]
  | .oC6 => [0xC6]
  | .oC7 => [0xC7]
  | .oB6 => [0x0F, 0xB6]
  | .oB7 => [0x0F, 0xB7]
  | .oBE => [0x0F, 0xBE]
  | .oBF => [0x0F, 0xBF]
  | .oAA => [0xAA]
  | .oAB => [0xAB]

/-- Whether the opcode takes a ModR/M byte (the string opcodes do not). -/
def Opc.takesModrm : Opc → Bool
  | .oAA => false
  | .oAB => false
  | _ => true

/-- A candidate encoding: legacy prefixes, optional REX, opcode, ModR/M
fields, optional SIB byte, displacement bytes, immediate bytes. -/
structure Enc where
  legacy : List Nat
  rex : Option Nat
  opc : Opc
  md : Nat
  reg : Nat
  rm : Nat
  sib : Option Nat
  disp : List Nat
  imm : List Nat
deriving DecidableEq

/-- The REX.W bit of the optional REX byte. -/
def Enc.rexW (e : Enc) : Bool :=
  match e.rex with
  | none => false
  | some r => r / 8 % 2 = 1

/-- The SIB base field (0 when no SIB byte is present). -/
def Enc.sibBase (e : Enc) : Nat := (e.sib.getD 0) % 8

/-- Architecturally true displacement width for the encoding. -/
def Enc.trueDispLen (e : Enc) : Nat :=
  if e.md = 1 then 1
  else if e.md = 2 then 4
  else if e.md = 0 ∧ (e.rm = 5 ∨ (e.rm = 4 ∧ e.sibBase = 5)) then 4
  else 0

/-- Architecturally true immediate width for the encoding. -/
def Enc.trueImmLen (e : Enc) : Nat :=
  match e.opc with
  | .oC6 => 1
  | .oC7 => if e.rexW then 4 else if 0x66 ∈ e.legacy then 2 else 4
  | _ => 0

/-- Legality of a candidate encoding. -/
def Enc.wf (e : Enc) : Bool :=
  e.legacy.all isLegacyByte &&
  (match e.rex with
   | none => true
   | some r => decide (0x40 ≤ r) && decide (r ≤ 0x4F)) &&
  (if e.opc.takesModrm then
    decide (e.md < 4) && decide (e.reg < 8) && decide (e.rm < 8) &&
    (e.sib.isSome == (decide (e.md ≠ 3) && decide (e.rm = 4))) &&
    (match e.sib with
     | none => true
     | some s => decide (s < 256)) &&
    (e.disp.length == e.trueDispLen) && (e.imm.length == e.trueImmLen)
   else
    (e.md == 0) && (e.reg == 0) && (e.rm == 0) &&
    e.sib.isNone && e.disp.isEmpty && e.imm.isEmpty)

/-- The ModR/M byte of the encoding. -/
def Enc.modrmByte (e : Enc) : Nat := e.md * 64 + e.reg * 8 + e.rm

/-- The byte string of the encoding. -/
def Enc.encode (e : Enc) : List Nat :=
  e.legacy ++ e.rex.toList ++ e.opc.bytes ++
  (if e.opc.takesModrm then e.modrmByte :: (e.sib.toList ++ e.disp) else []) ++ e.imm

/-! ## Concrete inputs used by witnesses and counterexamples -/

/-- A saved context with all registers zero. -/
def regsZero : Regs := fun _ => 0

/-- A saved context for the C6 counterexample: RAX nonzero. -/
def regsRax55 : Regs := fun i => if i = 13 then 0x55 else 0

/-- A saved context for the C8 counterexample: RAX and RBX hold different
values. -/
def regsStore : Regs := fun i => if i = 13 then 0x11111111 else if i = 11 then 0x22222222 else 0

/-- A saved context for the REP STOS overflow input: RDI at the window base
and RCX so large that `RDI + RCX` wraps to 0 in 64-bit arithmetic. -/
def regsStosOverflow : Regs :=
  fun i => if i = 14 then 2 ^ 64 - 0x40000000 else if i = 8 then 0x40000000 else 0

/-- A saved context for a small, in-bounds REP STOS. -/
def regsStosSmall : Regs :=
  fun i => if i = 14 then 16 else if i = 8 then 0x40000200 else if i = 13 then 0xA5 else 0

/-- A saved context matching the VEX memset pattern at the demonstration
window: RCX = 4, RDI = 0x40000000, RAX = 0xA5. -/
def regsAvx : Regs :=
  fun i => if i = 14 then 4 else if i = 8 then 0x40000000 else if i = 13 then 0xA5 else 0

/-- A transport whose peer rejects every request: responses echo the request
with `result = 1`. -/
def errTransport : Transport :=
  fun m => some (Msg.mk m.device_id m.command m.address m.length m.data 1)

/-- The demonstration device of the repository's tests: id 1 at
`0x40000000`, window size `0x1000`. -/
def uartDevice : Device := Device.mk 1 0x40000000 0x1000

/-! ## Helper lemmas -/

theorem unregister_find_none (ds : List Device) (id : Nat)
    (h : ∀ d ∈ ds, d.device_id ≠ id) : unregister_find ds id = none := by
  induction ds with
  | nil => rfl
  | cons d rest ih =>
    have hd := h d (by simp)
    simp [unregister_find, if_neg hd, ih fun d' hm => h d' (by simp [hm])]

theorem unregister_find_concat (ds : List Device) (e : Device) (id : Nat)
    (h : ∀ d ∈ ds, d.device_id ≠ id) (he : e.device_id = id) :
    unregister_find (ds ++ [e]) id = some ds.length := by
  induction ds with
  | nil => simp [unregister_find, he]
  | cons d rest ih =>
    have hd := h d (by simp)
    simp [unregister_find, if_neg hd, ih fun d' hm => h d' (by simp [hm])]

theorem getLastD_concat_dev (l : List Device) (e d0 : Device) :
    (l ++ [e]).getLastD d0 = e := by
  simp [List.getLastD_eq_getLast?, List.getLast?_concat]

theorem set_concat_length (l : List Device) (a b : Device) :
    (l ++ [a]).set l.length b = l ++ [b] := by
  induction l with
  | nil => rfl
  | cons d rest ih => simp [ih]

theorem dropLast_concat_dev (l : List Device) (e : Device) :
    (l ++ [e]).dropLast = l := by
  simp

/-! ## Claim C7 -/

/-- C7: whenever no model peer is reachable, the in-process fallback
responder answers deterministically — a READ at an address with low byte
`0x04` returns `0x00000001`, any other READ returns `0xDEADBEEF`, a WRITE
is answered by echoing the request with `result = SUCCESS` — and the
fallback always reports success (return value 0) to its caller. -/
theorem fallback_responder_deterministic (m : Msg) :
    (send_message_to_model_fallback m).2 = 0 ∧
    (send_message_to_model_fallback m).1.result = RESULT_SUCCESS ∧
    (m.command = CMD_READ → m.address % 256 = 0x04 →
      (send_message_to_model_fallback m).1.data % 2 ^ 32 = 0x00000001) ∧
    (m.command = CMD_READ → m.address % 256 ≠ 0x04 →
      (send_message_to_model_fallback m).1.data % 2 ^ 32 = 0xDEADBEEF) ∧
    (m.command = CMD_WRITE →
      (send_message_to_model_fallback m).1 =
        Msg.mk m.device_id m.command m.address m.length m.data RESULT_SUCCESS) := by
  refine ⟨rfl, ?_, ?_, ?_, ?_⟩
  · unfold send_message_to_model_fallback simulation_fallback
    split <;> rfl
  · intro hc ha
    simp only [send_message_to_model_fallback, simulation_fallback, if_pos hc, if_pos ha]
    omega
  · intro hc ha
    simp only [send_message_to_model_fallback, simulation_fallback, if_pos hc, if_neg ha]
    omega
  · intro hc
    have hnr : ¬ m.command = CMD_READ := by rw [hc]; decide
    simp only [send_message_to_model_fallback, simulation_fallback, if_neg hnr]

/-- Witness for C7: the fallback applied to a STATUS-offset READ, an
ordinary READ and a WRITE. -/
theorem fallback_responder_deterministic_witness :
    (send_message_to_model_fallback (Msg.mk 1 1 0x40000004 4 0 0)).1.data % 2 ^ 32 = 1 ∧
    (send_message_to_model_fallback (Msg.mk 1 1 0x40000000 4 0 0)).1.data % 2 ^ 32 = 0xDEADBEEF ∧
    (send_message_to_model_fallback (Msg.mk 1 2 0x40000000 4 7 0)).1 =
      Msg.mk 1 2 0x40000000 4 7 RESULT_SUCCESS :=
  ⟨(fallback_responder_deterministic (Msg.mk 1 1 0x40000004 4 0 0)).2.2.1 rfl (by decide),
   (fallback_responder_deterministic (Msg.mk 1 1 0x40000000 4 0 0)).2.2.2.1 rfl (by decide),
   (fallback_responder_deterministic (Msg.mk 1 2 0x40000000 4 7 0)).2.2.2.2 rfl⟩

/-! ## Claim C10 -/

/-- C10: for an address in no registered window the bypass API does not
terminate the process and sends nothing: `read_register` returns 0 having
handed no request to the transport, and `write_register` returns `-1`
having handed no request to the transport. -/
theorem bypass_unmapped_no_request (transport : Transport) (ds : List Device)
    (address value size : Nat) (h : ∀ d ∈ ds, inWindow d address = false) :
    read_register transport ds address size = ([], 0) ∧
    write_register transport ds address value size = ([], -1) := by
  induction ds with
  | nil => exact ⟨rfl, rfl⟩
  | cons d rest ih =>
    have hd := h d (by simp)
    have ihr := ih fun d' hm => h d' (by simp [hm])
    constructor
    · simpa [read_register, hd] using ihr.1
    · simpa [write_register, hd] using ihr.2

/-- Witness for C10: address `0x100` lies in no window of the registry
holding only the demonstration device. -/
theorem bypass_unmapped_no_request_witness :
    read_register fallbackTransport [uartDevice] 0x100 4 = ([], 0) ∧
    write_register fallbackTransport [uartDevice] 0x100 5 4 = ([], -1) :=
  bypass_unmapped_no_request fallbackTransport [uartDevice] 0x100 5 4 (by decide)

/-! ## Claim C4 -/

/-- C4 counterexample: with a live entry of device id 1 and window
`[0x1000, 0x1100)`, registering the very same id and window again succeeds
and installs a second entry — the code performs no id-uniqueness and no
overlap check, contradicting the claim that such a registration fails. -/
theorem register_device_counterexample :
    register_device true [Device.mk 1 0x1000 0x100] 1 0x1000 0x100 =
      some [Device.mk 1 0x1000 0x100, Device.mk 1 0x1000 0x100] := by decide

/-- C4 amended: `register_device` fails (installing no entry) exactly when
the registry already holds `MAX_DEVICES` entries or the reservation
allocation fails; a duplicate id or an overlapping window is not rejected,
and on success the entry is appended unchanged. -/
theorem register_device_failure_conditions (reserve_ok : Bool) (ds : List Device)
    (id base size : Nat) :
    ((register_device reserve_ok ds id base size).isSome ↔
      (ds.length < MAX_DEVICES ∧ reserve_ok = true)) ∧
    (∀ ds', register_device reserve_ok ds id base size = some ds' →
      ds' = ds ++ [Device.mk (id % 2 ^ 32) (base % 2 ^ 32) (size % 2 ^ 32)]) := by
  unfold register_device
  constructor
  · by_cases hlen : MAX_DEVICES ≤ ds.length
    · rw [if_pos hlen]
      simp only [Option.isSome_none, Bool.false_eq_true, false_iff]
      rintro ⟨h1, -⟩
      omega
    · cases reserve_ok
      · rw [if_neg hlen, if_pos rfl]
        simp only [Option.isSome_none, Bool.false_eq_true, false_iff]
        rintro ⟨-, h2⟩
        exact absurd h2 (by decide)
      · rw [if_neg hlen, if_neg (by decide)]
        simp only [Option.isSome_some, true_iff]
        exact ⟨by omega, trivial⟩
  · intro ds' h
    by_cases hlen : MAX_DEVICES ≤ ds.length
    · rw [if_pos hlen] at h
      exact absurd h (by simp)
    · cases reserve_ok
      · rw [if_neg hlen, if_pos rfl] at h
        exact absurd h (by simp)
      · rw [if_neg hlen, if_neg (by decide)] at h
        exact (Option.some_inj.mp h).symm

/-- Witness for C4: an empty registry accepts the demonstration device, and
the appended entry is as stated. -/
theorem register_device_failure_conditions_witness :
    (register_device true ([] : List Device) 1 0x40000000 0x1000).isSome ∧
    [Device.mk 1 0x40000000 0x1000] =
      [] ++ [Device.mk (1 % 2 ^ 32) (0x40000000 % 2 ^ 32) (0x1000 % 2 ^ 32)] :=
  ⟨((register_device_failure_conditions true [] 1 0x40000000 0x1000).1).mpr (by decide),
   (register_device_failure_conditions true [] 1 0x40000000 0x1000).2
     [Device.mk 1 0x40000000 0x1000] (by decide)⟩

/-! ## Claim C9 -/

/-- C9 counterexample: with a live entry whose window overlaps the new one
(the code accepted it, C4), register id 1 at `[0x1000, 0x1100)` then
unregister id 1: afterwards lookup of `0x1000` still yields a device, so
the claim's "lookup of any address in `[base, base+size)` yields no
device" fails for this registry state. -/
theorem register_unregister_counterexample :
    register_device true [Device.mk 2 0x1000 0x1000] 1 0x1000 0x100 =
      some [Device.mk 2 0x1000 0x1000, Device.mk 1 0x1000 0x100] ∧
    unregister_device [Device.mk 2 0x1000 0x1000, Device.mk 1 0x1000 0x100] 1 =
      some [Device.mk 2 0x1000 0x1000] ∧
    lookup [Device.mk 2 0x1000 0x1000] 0x1000 = some (Device.mk 2 0x1000 0x1000) := by
  decide

/-- C9 amended: provided no other live entry carries the same id, a
successful `register(id, base, size)` followed by `unregister(id)` returns
ok and restores the previous registry exactly; lookup then yields no device
at any address outside the remaining windows (in particular at every
address of `[base, base+size)` when that window is disjoint from all
remaining ones); re-registering the same window succeeds again; and an
unregister with no live entry of that id returns NotFound. -/
theorem register_unregister_roundtrip (ds : List Device) (id base size : Nat)
    (hlen : ds.length < MAX_DEVICES) (hid : id < 2 ^ 32) (hb : base < 2 ^ 32)
    (hs : size < 2 ^ 32) (hfresh : ∀ d ∈ ds, d.device_id ≠ id) :
    register_device true ds id base size = some (ds ++ [Device.mk id base size]) ∧
    unregister_device (ds ++ [Device.mk id base size]) id = some ds ∧
    (∀ a, (∀ d ∈ ds, inWindow d a = false) → lookup ds a = none) ∧
    unregister_device ds id = none := by
  have hlen16 : ds.length < 16 := by simpa [MAX_DEVICES] using hlen
  have hreg : register_device true ds id base size =
      some (ds ++ [Device.mk id base size]) := by
    unfold register_device MAX_DEVICES
    rw [if_neg (by omega), if_neg (by decide),
      Nat.mod_eq_of_lt hid, Nat.mod_eq_of_lt hb, Nat.mod_eq_of_lt hs]
  refine ⟨hreg, ?_, ?_, ?_⟩
  · unfold unregister_device
    rw [unregister_find_concat ds (Device.mk id base size) id hfresh rfl]
    show some (((ds ++ [Device.mk id base size]).set ds.length
      ((ds ++ [Device.mk id base size]).getLastD (Device.mk 0 0 0))).dropLast) = some ds
    rw [getLastD_concat_dev, set_concat_length, dropLast_concat_dev]
  · intro a ha
    unfold lookup
    rw [List.find?_eq_none]
    intro d hd
    simp [ha d hd]
  · simp [unregister_device, unregister_find_none ds id hfresh]

/-- Witness for C9: one unrelated, disjoint live entry; register and
unregister the demonstration window around it. -/
theorem register_unregister_roundtrip_witness :
    register_device true [Device.mk 2 0x50000000 0x1000] 1 0x40000000 0x1000 =
      some [Device.mk 2 0x50000000 0x1000, Device.mk 1 0x40000000 0x1000] ∧
    unregister_device [Device.mk 2 0x50000000 0x1000, Device.mk 1 0x40000000 0x1000] 1 =
      some [Device.mk 2 0x50000000 0x1000] ∧
    lookup [Device.mk 2 0x50000000 0x1000] 0x40000000 = none ∧
    unregister_device [Device.mk 2 0x50000000 0x1000] 1 = none := by
  have h := register_unregister_roundtrip [Device.mk 2 0x50000000 0x1000] 1
    0x40000000 0x1000 (by decide) (by decide) (by decide) (by decide) (by decide)
  exact ⟨h.1, h.2.1, h.2.2.1 0x40000000 (by decide), h.2.2.2⟩

/-! ## Claim C5 -/

/-- C5: on a successful READ the destination slot of the saved context is
updated by operand size — size 1 replaces only the low 8 bits, size 2 only
the low 16 bits, size 4 sets the low 32 bits and zeroes the high 32 bits,
size 8 replaces all 64 bits — and no other register changes.  The argument
`d0 % 2 ^ (8 * size)` is the `read_data` value the handler extracts from
the response (`memcpy` of `access_size` bytes into a zeroed 64-bit
temporary). -/
theorem read_writeback_by_size (regs : Regs) (dest_reg d0 : Nat) :
    (read_writeback regs dest_reg (d0 % 2 ^ 8) 1 dest_reg % 2 ^ 8 = d0 % 2 ^ 8 ∧
     read_writeback regs dest_reg (d0 % 2 ^ 8) 1 dest_reg / 2 ^ 8 =
       regs dest_reg % 2 ^ 64 / 2 ^ 8 ∧
     ∀ j, j ≠ dest_reg → read_writeback regs dest_reg (d0 % 2 ^ 8) 1 j = regs j) ∧
    (read_writeback regs dest_reg (d0 % 2 ^ 16) 2 dest_reg % 2 ^ 16 = d0 % 2 ^ 16 ∧
     read_writeback regs dest_reg (d0 % 2 ^ 16) 2 dest_reg / 2 ^ 16 =
       regs dest_reg % 2 ^ 64 / 2 ^ 16 ∧
     ∀ j, j ≠ dest_reg → read_writeback regs dest_reg (d0 % 2 ^ 16) 2 j = regs j) ∧
    (read_writeback regs dest_reg (d0 % 2 ^ 32) 4 dest_reg = d0 % 2 ^ 32 ∧
     ∀ j, j ≠ dest_reg → read_writeback regs dest_reg (d0 % 2 ^ 32) 4 j = regs j) ∧
    (read_writeback regs dest_reg (d0 % 2 ^ 64) 8 dest_reg = d0 % 2 ^ 64 ∧
     ∀ j, j ≠ dest_reg → read_writeback regs dest_reg (d0 % 2 ^ 64) 8 j = regs j) := by
  refine ⟨⟨?_, ?_, ?_⟩, ⟨?_, ?_, ?_⟩, ⟨?_, ?_⟩, ⟨?_, ?_⟩⟩
  · simp [read_writeback, setReg]
    omega
  · simp [read_writeback, setReg]
    omega
  · intro j hj
    simp [read_writeback, setReg, hj]
  · simp [read_writeback, setReg]
    omega
  · simp [read_writeback, setReg]
    omega
  · intro j hj
    simp [read_writeback, setReg, hj]
  · simp [read_writeback, setReg]
  · intro j hj
    simp [read_writeback, setReg, hj]
  · simp [read_writeback, setReg]
  · intro j hj
    simp [read_writeback, setReg, hj]

/-- Witness for C5: the writeback at register slot 13 (RAX) with old value
`0x1122334455667788` and response data `0xAABBCCDD11223344`. -/
theorem read_writeback_by_size_witness :
    read_writeback regsRax55 13 (0xAABBCCDD11223344 % 2 ^ 8) 1 13 % 2 ^ 8 =
      0xAABBCCDD11223344 % 2 ^ 8 ∧
    read_writeback regsRax55 13 (0xAABBCCDD11223344 % 2 ^ 32) 4 13 =
      0xAABBCCDD11223344 % 2 ^ 32 ∧
    read_writeback regsRax55 13 (0xAABBCCDD11223344 % 2 ^ 8) 1 8 = regsRax55 8 :=
  ⟨(read_writeback_by_size regsRax55 13 0xAABBCCDD11223344).1.1,
   (read_writeback_by_size regsRax55 13 0xAABBCCDD11223344).2.2.1.1,
   (read_writeback_by_size regsRax55 13 0xAABBCCDD11223344).1.2.2 8 (by decide)⟩

/-! ## Claim C8 -/

/-- C8 counterexample: for the store `89 1E` (`mov [rsi], ebx`, ModR/M reg
field 3 = RBX) with RAX = `0x11111111` and RBX = `0x22222222`, the
classification block takes the write data from RAX, not from the ModR/M
source register RBX — refuting the claim that every source register is
honored. -/
theorem store_data_counterexample :
    decode_access [0x89, 0x1E] regsStore = Decoded.mk true 4 0x11111111 false ∧
    0x1E / 8 % 8 = 3 ∧
    regIndexMap 3 = REG_RBX ∧
    regsStore REG_RBX = 0x22222222 ∧
    (0x11111111 : Nat) ≠ 0x22222222 := by
  refine ⟨by decide, by decide, by decide, by decide, by decide⟩

/-- C8 amended: the write data of an `88`/`89` store is always the
accumulator (RAX) masked to the operand size, for every value of the
ModR/M byte — the `reg` field is ignored on the store path. -/
theorem store_data_uses_accumulator (m : Nat) (regs : Regs) :
    decode_access [0x88, m] regs = Decoded.mk true 1 (regs REG_RAX % 2 ^ 8) false ∧
    decode_access [0x89, m] regs = Decoded.mk true 4 (regs REG_RAX % 2 ^ 32) false ∧
    decode_access [0x66, 0x89, m] regs = Decoded.mk true 2 (regs REG_RAX % 2 ^ 16) false := by
  refine ⟨?_, ?_, ?_⟩ <;>
    simp [decode_access, afterSkip, isSkipByte]

/-! ## Handler-path helper lemmas -/

theorem simulation_fallback_result (m : Msg) :
    (simulation_fallback m).result = RESULT_SUCCESS := by
  unfold simulation_fallback
  split <;> rfl

theorem rep_stos_loop_length_fallback (d : Device) (s value dest : Nat) :
    ∀ fuel j, (rep_stos_loop fallbackTransport d s value dest j fuel).length = fuel := by
  intro fuel
  induction fuel with
  | zero => intro j; rfl
  | succ n ih =>
    intro j
    simp [rep_stos_loop, fallbackTransport, simulation_fallback_result, ih]

theorem handle_rep_stos_no_clamp (transport : Transport) (devices : List Device)
    (inst : List Nat) (regs : Regs) (s : Nat) (d : Device)
    (hlk : lookup devices (regs REG_RDI) = some d)
    (hnc : ¬ ((d.base_address + d.size) % 2 ^ 32 <
        (regs REG_RDI + regs REG_RCX * s) % 2 ^ 64)) :
    handle_rep_stos transport devices inst regs s =
      (some (setReg (setReg (setReg regs REG_RCX 0)
          REG_RDI ((regs REG_RDI + regs REG_RCX * s) % 2 ^ 64))
          REG_RIP ((regs REG_RIP + get_instruction_length inst) % 2 ^ 64)),
       rep_stos_loop transport d s (regs REG_RAX) (regs REG_RDI) 0 (regs REG_RCX)) := by
  simp only [handle_rep_stos, hlk, if_neg hnc]

theorem handle_single_access_isSome (transport : Transport) (devices : List Device)
    (inst : List Nat) (fault_addr : Nat) (regs : Regs) (d : Device)
    (hdev : lookup devices fault_addr = some d) :
    (handle_single_access transport devices inst fault_addr regs).1.isSome = true := by
  simp only [handle_single_access, hdev]
  split <;> simp

theorem avx_memset_loop_writes (transport : Transport) (d : Device) (rdi value : Nat) :
    ∀ fuel j m, m ∈ avx_memset_loop transport d rdi value j fuel →
      m.command = CMD_WRITE ∧ m.length = 1 := by
  intro fuel
  induction fuel with
  | zero =>
    intro j m hm
    simp [avx_memset_loop] at hm
  | succ n ih =>
    intro j m hm
    simp only [avx_memset_loop] at hm
    split at hm
    · simp at hm
    · split at hm
      · simp at hm
        subst hm
        exact ⟨rfl, rfl⟩
      · rcases List.mem_cons.mp hm with h | h
        · subst h
          exact ⟨rfl, rfl⟩
        · exact ih _ m h

/-! ## Claim C1 -/

/-- C1 counterexample: the faulting instruction `3B 06` (`cmp eax, [rsi]`,
an opcode outside the supported set) at a mapped device address does not
terminate the process: the handler resumes, having emitted a 4-byte READ
(the fallback value `0xDEADBEEF` lands in RAX and RIP advances), i.e. the
unknown opcode is silently reinterpreted as an implicit 32-bit load. -/
theorem unknown_opcode_counterexample :
    ((segv_handler fallbackTransport [uartDevice] [0x3B, 0x06] 0x40000000 regsZero).1.map
      (fun r => (r REG_RAX, r REG_RIP))) = some (0xDEADBEEF, 1) ∧
    (segv_handler fallbackTransport [uartDevice] [0x3B, 0x06] 0x40000000 regsZero).2 =
      [Msg.mk 1 CMD_READ 0x40000000 4 0 0] := by
  constructor <;> decide

/-- C1 amended: for every faulting instruction that is not a REP-STOS
encoding, at a fault address inside a registered window, the handler never
terminates the process.  Its continuation takes one of two shapes: a
non-VEX instruction that classifies as a 4-byte read — which is what every
unsupported non-VEX opcode decodes to through the default branches — is
answered with exactly one 4-byte READ request (the implicit-load
reinterpretation the original claim forbids); a VEX-prefixed instruction
(first byte `0xC5`) whose saved context matches the memset pattern
(`0 < RCX ≤ 1024`, `RDI` = fault address) is instead simulated by one-byte
WRITE requests only.  Termination is reserved for unmapped faults. -/
theorem unknown_opcode_resumes (transport : Transport) (devices : List Device)
    (inst : List Nat) (fault_addr : Nat) (regs : Regs) (d : Device)
    (hrep : rep_stos_size inst = none)
    (hdev : lookup devices fault_addr = some d) :
    (segv_handler transport devices inst fault_addr regs).1.isSome = true ∧
    (inst.getD 0 0 ≠ 0xC5 →
      (decode_access inst regs).is_write = false →
      (decode_access inst regs).access_size = 4 →
      (segv_handler transport devices inst fault_addr regs).2 =
        [Msg.mk d.device_id CMD_READ (fault_addr % 2 ^ 32) 4 0 0]) ∧
    (inst.getD 0 0 = 0xC5 →
      0 < regs REG_RCX → regs REG_RCX ≤ 1024 → regs REG_RDI = fault_addr →
      ∀ m, m ∈ (segv_handler transport devices inst fault_addr regs).2 →
        m.command = CMD_WRITE ∧ m.length = 1) := by
  refine ⟨?_, ?_, ?_⟩
  · by_cases hb0 : inst.getD 0 0 = 0xC5
    · simp only [segv_handler, if_pos hb0, handle_avx, hdev]
      split
      · simp
      · exact handle_single_access_isSome transport devices inst fault_addr regs d hdev
    · simp only [segv_handler, if_neg hb0, hrep]
      exact handle_single_access_isSome transport devices inst fault_addr regs d hdev
  · intro hb0 hread hsize
    simp only [segv_handler, if_neg hb0, hrep]
    simp only [handle_single_access, hdev, hread, hsize, Bool.false_eq_true, if_false]
    cases h : transport (Msg.mk d.device_id CMD_READ (fault_addr % 2 ^ 32) 4 0 0) <;>
      simp [h]
  · intro hb0 h1 h2 h3 m hm
    have hmsg : (segv_handler transport devices inst fault_addr regs).2 =
        avx_memset_loop transport d (regs REG_RDI) (regs REG_RAX % 2 ^ 8) 0
          (regs REG_RCX) := by
      simp only [segv_handler, if_pos hb0, handle_avx, hdev]
      rw [if_pos ⟨h1, h2, h3⟩]
    rw [hmsg] at hm
    exact avx_memset_loop_writes transport d (regs REG_RDI) (regs REG_RAX % 2 ^ 8)
      (regs REG_RCX) 0 m hm

/-- Witness for C1 (amended): the unknown opcode `3B 06` at the mapped
address `0x40000000` (resumes, one 4-byte READ), and a VEX instruction
`C5 10` under the memset pattern (resumes; its requests are one-byte
WRITEs, exhibited on the first request of its bulk simulation). -/
theorem unknown_opcode_resumes_witness :
    (segv_handler fallbackTransport [uartDevice] [0x3B, 0x06] 0x40000000 regsZero).1.isSome
        = true ∧
    (segv_handler fallbackTransport [uartDevice] [0x3B, 0x06] 0x40000000 regsZero).2 =
      [Msg.mk 1 CMD_READ 0x40000000 4 0 0] ∧
    (segv_handler fallbackTransport [uartDevice] [0xC5, 0x10] 0x40000000 regsAvx).1.isSome
        = true ∧
    ((Msg.mk 1 CMD_WRITE 0x40000000 1 0xA5 0).command = CMD_WRITE ∧
     (Msg.mk 1 CMD_WRITE 0x40000000 1 0xA5 0).length = 1) :=
  ⟨(unknown_opcode_resumes fallbackTransport [uartDevice] [0x3B, 0x06] 0x40000000 regsZero
      uartDevice (by decide) (by decide)).1,
   (unknown_opcode_resumes fallbackTransport [uartDevice] [0x3B, 0x06] 0x40000000 regsZero
      uartDevice (by decide) (by decide)).2.1 (by decide) (by decide) (by decide),
   (unknown_opcode_resumes fallbackTransport [uartDevice] [0xC5, 0x10] 0x40000000 regsAvx
      uartDevice (by decide) (by decide)).1,
   (unknown_opcode_resumes fallbackTransport [uartDevice] [0xC5, 0x10] 0x40000000 regsAvx
      uartDevice (by decide) (by decide)).2.2 (by decide) (by decide) (by decide) (by decide)
      (Msg.mk 1 CMD_WRITE 0x40000000 1 0xA5 0) (by decide)⟩

/-! ## Claim C6 -/

/-- C6 counterexample: a READ (`8B 06`, destination RAX) whose response
carries `result = 1 ≠ SUCCESS`: the handler advances RIP but leaves the
destination register at its old value `0x55` — zero is not written, as the
claim demands. -/
theorem read_error_register_not_zeroed :
    ((segv_handler errTransport [uartDevice] [0x8B, 0x06] 0x40000000 regsRax55).1.map
      (fun r => (r REG_RAX, r REG_RIP))) = some (0x55, 2) ∧
    (0x55 : Nat) ≠ 0 := by
  constructor <;> decide

/-- C6 amended: for every READ fault whose transport response carries
`result ≠ SUCCESS`, the trap engine still advances the saved program
counter past the instruction, and leaves the destination register (and
every other register) unchanged — no value, in particular not zero, is
written to it. -/
theorem read_error_advances_pc (transport : Transport) (devices : List Device)
    (inst : List Nat) (fault_addr : Nat) (regs : Regs) (d : Device) (resp : Msg)
    (hb0 : inst.getD 0 0 ≠ 0xF3) (hb0' : inst.getD 0 0 ≠ 0xC5)
    (hread : (decode_access inst regs).is_write = false)
    (hdev : lookup devices fault_addr = some d)
    (htr : transport (Msg.mk d.device_id CMD_READ (fault_addr % 2 ^ 32)
        (decode_access inst regs).access_size 0 0) = some resp)
    (hres : resp.result ≠ RESULT_SUCCESS) :
    segv_handler transport devices inst fault_addr regs =
      (some (setReg regs REG_RIP ((regs REG_RIP + get_instruction_length inst) % 2 ^ 64)),
       [Msg.mk d.device_id CMD_READ (fault_addr % 2 ^ 32)
          (decode_access inst regs).access_size 0 0]) := by
  have hrep : rep_stos_size inst = none := by
    unfold rep_stos_size
    rw [if_neg hb0]
  simp only [segv_handler, if_neg hb0', hrep]
  simp only [handle_single_access, hdev, hread, Bool.false_eq_true, if_false, htr]
  simp [hres]

/-- Witness for C6 (amended): the load `8B 06` against a peer that rejects
every request with `result = 1`. -/
theorem read_error_advances_pc_witness :
    segv_handler errTransport [uartDevice] [0x8B, 0x06] 0x40000000 regsRax55 =
      (some (setReg regsRax55 REG_RIP
          ((regsRax55 REG_RIP + get_instruction_length [0x8B, 0x06]) % 2 ^ 64)),
       [Msg.mk 1 CMD_READ 0x40000000 4 0 0]) :=
  read_error_advances_pc errTransport [uartDevice] [0x8B, 0x06] 0x40000000 regsRax55
    uartDevice (Msg.mk 1 1 0x40000000 4 0 1) (by decide) (by decide) (by decide)
    (by decide) (by decide) (by decide)

/-! ## Claim C2 -/

/-- C2 (code bug): for the REP STOSB fault with destination `0x40000000`
(window `[0x40000000, 0x40001000)`) and count `2^64 - 0x40000000`, the
64-bit product-and-add `dest + count * size` wraps to 0, the clamp check
`end_addr > device_base + device_size` fails, and the engine emits `count`
WRITE requests instead of the claimed `min(count, (base+size-dest)/size)
= 0x1000` — the bounds clamp is defeated by unsigned overflow. -/
theorem rep_stos_overflow_eval :
    (segv_handler fallbackTransport [uartDevice] [0xF3, 0xAA] 0x40000000
        regsStosOverflow).2.length = 2 ^ 64 - 0x40000000 ∧
    (2 ^ 64 - 0x40000000 : Nat) ≠
      min (2 ^ 64 - 0x40000000) ((0x40000000 + 0x1000 - 0x40000000) / 1) := by
  constructor
  · have hstep : segv_handler fallbackTransport [uartDevice] [0xF3, 0xAA] 0x40000000
        regsStosOverflow =
        handle_rep_stos fallbackTransport [uartDevice] [0xF3, 0xAA] regsStosOverflow 1 := rfl
    rw [hstep, handle_rep_stos_no_clamp fallbackTransport [uartDevice] [0xF3, 0xAA]
      regsStosOverflow 1 uartDevice (by decide) (by decide)]
    exact (rep_stos_loop_length_fallback uartDevice 1 (regsStosOverflow REG_RAX)
      (regsStosOverflow REG_RDI) (regsStosOverflow REG_RCX) 0).trans rfl
  · decide

/-! ## Length-computation helper lemmas -/

theorem countLegacy_append_cons (ps : List Nat) (b : Nat) (l : List Nat)
    (h : ps.all isLegacyByte = true) (hb : isLegacyByte b = false) :
    countLegacy (ps ++ b :: l) = ps.length := by
  induction ps with
  | nil => simp [countLegacy, hb]
  | cons a rest ih =>
    simp only [List.all_cons, Bool.and_eq_true] at h
    simp [countLegacy, h.1, ih h.2]

theorem afterLegacy_append_cons (ps : List Nat) (b : Nat) (l : List Nat)
    (h : ps.all isLegacyByte = true) (hb : isLegacyByte b = false) :
    afterLegacy (ps ++ b :: l) = b :: l := by
  induction ps with
  | nil => simp [afterLegacy, hb]
  | cons a rest ih =>
    simp only [List.all_cons, Bool.and_eq_true] at h
    simp [afterLegacy, h.1, ih h.2]

theorem rex_not_legacy (r : Nat) (h1 : 0x40 ≤ r) (h2 : r ≤ 0x4F) :
    isLegacyByte r = false := by
  simp only [isLegacyByte]
  simp only [Bool.or_eq_false_iff, decide_eq_false_iff_not]
  omega

theorem mem66_take_append (ps l : List Nat) (n : Nat) :
    (0x66 : Nat) ∈ (ps ++ l).take (ps.length + n) ↔
      ((0x66 : Nat) ∈ ps ∨ (0x66 : Nat) ∈ l.take n) := by
  induction ps with
  | nil => simp
  | cons a rest ih =>
    have hn : (a :: rest).length + n = (rest.length + n) + 1 := by
      simp
      omega
    rw [List.cons_append, hn, List.take_succ_cons, List.mem_cons, List.mem_cons, ih, or_assoc]

set_option maxHeartbeats 1000000 in
theorem gil_on_enc (e : Enc) (rest : List Nat) (hwf : e.wf = true) :
    get_instruction_length (e.encode ++ rest) =
      e.legacy.length + e.rex.toList.length + e.opc.bytes.length +
      (if e.opc.takesModrm then
        1 + (if e.md ≠ 3 ∧ e.rm = 4 then 1 else 0) +
        (if e.md = 1 then 1 else if e.md = 2 ∨ (e.md = 0 ∧ e.rm = 5) then 4 else 0) +
        (if e.opc = Opc.oC6 then 1
         else if e.opc = Opc.oC7 then (if (0x66 : Nat) ∈ e.legacy then 2 else 4) else 0)
       else 0) := by
  obtain ⟨ps, rex, opc, md, reg, rm, sib, disp, imm⟩ := e
  simp only [Enc.wf, Bool.and_eq_true] at hwf
  obtain ⟨⟨hps, hrexb⟩, hmodp⟩ := hwf
  cases rex with
  | none =>
    cases opc with
    | o8A =>
      simp only [Opc.takesModrm, eq_self_iff_true, if_true, Bool.and_eq_true,
        decide_eq_true_eq] at hmodp
      obtain ⟨⟨⟨⟨⟨⟨hmd, hreg⟩, hrm⟩, -⟩, -⟩, -⟩, -⟩ := hmodp
      have hmd4 : (md * 64 + reg * 8 + rm) / 64 % 4 = md := by omega
      have hrm8 : (md * 64 + reg * 8 + rm) % 8 = rm := by omega
      simp only [Enc.encode, Opc.bytes, Opc.takesModrm, Enc.modrmByte, Option.toList,
        List.cons_append, List.nil_append, List.append_assoc, if_true]
      simp only [get_instruction_length]
      rw [countLegacy_append_cons ps 0x8A _ hps (by decide),
          afterLegacy_append_cons ps 0x8A _ hps (by decide)]
      simp [hmd4, hrm8]
      omega
    | o8B =>
      simp only [Opc.takesModrm, eq_self_iff_true, if_true, Bool.and_eq_true,
        decide_eq_true_eq] at hmodp
      obtain ⟨⟨⟨⟨⟨⟨hmd, hreg⟩, hrm⟩, -⟩, -⟩, -⟩, -⟩ := hmodp
      have hmd4 : (md * 64 + reg * 8 + rm) / 64 % 4 = md := by omega
      have hrm8 : (md * 64 + reg * 8 + rm) % 8 = rm := by omega
      simp only [Enc.encode, Opc.bytes, Opc.takesModrm, Enc.modrmByte, Option.toList,
        List.cons_append, List.nil_append, List.append_assoc, if_true]
      simp only [get_instruction_length]
      rw [countLegacy_append_cons ps 0x8B _ hps (by decide),
          afterLegacy_append_cons ps 0x8B _ hps (by decide)]
      simp [hmd4, hrm8]
      omega
    | o88 =>
      simp only [Opc.takesModrm, eq_self_iff_true, if_true, Bool.and_eq_true,
        decide_eq_true_eq] at hmodp
      obtain ⟨⟨⟨⟨⟨⟨hmd, hreg⟩, hrm⟩, -⟩, -⟩, -⟩, -⟩ := hmodp
      have hmd4 : (md * 64 + reg * 8 + rm) / 64 % 4 = md := by omega
      have hrm8 : (md * 64 + reg * 8 + rm) % 8 = rm := by omega
      simp only [Enc.encode, Opc.bytes, Opc.takesModrm, Enc.modrmByte, Option.toList,
        List.cons_append, List.nil_append, List.append_assoc, if_true]
      simp only [get_instruction_length]
      rw [countLegacy_append_cons ps 0x88 _ hps (by decide),
          afterLegacy_append_cons ps 0x88 _ hps (by decide)]
      simp [hmd4, hrm8]
      omega
    | o89 =>
      simp only [Opc.takesModrm, eq_self_iff_true, if_true, Bool.and_eq_true,
        decide_eq_true_eq] at hmodp
      obtain ⟨⟨⟨⟨⟨⟨hmd, hreg⟩, hrm⟩, -⟩, -⟩, -⟩, -⟩ := hmodp
      have hmd4 : (md * 64 + reg * 8 + rm) / 64 % 4 = md := by omega
      have hrm8 : (md * 64 + reg * 8 + rm) % 8 = rm := by omega
      simp only [Enc.encode, Opc.bytes, Opc.takesModrm, Enc.modrmByte, Option.toList,
        List.cons_append, List.nil_append, List.append_assoc, if_true]
      simp only [get_instruction_length]
      rw [countLegacy_append_cons ps 0x89 _ hps (by decide),
          afterLegacy_append_cons ps 0x89 _ hps (by decide)]
      simp [hmd4, hrm8]
      omega
    | oC6 =>
      simp only [Opc.takesModrm, eq_self_iff_true, if_true, Bool.and_eq_true,
        decide_eq_true_eq] at hmodp
      obtain ⟨⟨⟨⟨⟨⟨hmd, hreg⟩, hrm⟩, -⟩, -⟩, -⟩, -⟩ := hmodp
      have hmd4 : (md * 64 + reg * 8 + rm) / 64 % 4 = md := by omega
      have hrm8 : (md * 64 + reg * 8 + rm) % 8 = rm := by omega
      simp only [Enc.encode, Opc.bytes, Opc.takesModrm, Enc.modrmByte, Option.toList,
        List.cons_append, List.nil_append, List.append_assoc, if_true]
      simp only [get_instruction_length]
      rw [countLegacy_append_cons ps 0xC6 _ hps (by decide),
          afterLegacy_append_cons ps 0xC6 _ hps (by decide)]
      simp [hmd4, hrm8]
      omega
    | oC7 =>
      simp only [Opc.takesModrm, eq_self_iff_true, if_true, Bool.and_eq_true,
        decide_eq_true_eq] at hmodp
      obtain ⟨⟨⟨⟨⟨⟨hmd, hreg⟩, hrm⟩, -⟩, -⟩, -⟩, -⟩ := hmodp
      have hmd4 : (md * 64 + reg * 8 + rm) / 64 % 4 = md := by omega
      have hrm8 : (md * 64 + reg * 8 + rm) % 8 = rm := by omega
      simp only [Enc.encode, Opc.bytes, Opc.takesModrm, Enc.modrmByte, Option.toList,
        List.cons_append, List.nil_append, List.append_assoc, if_true]
      simp only [get_instruction_length]
      rw [countLegacy_append_cons ps 0xC7 _ hps (by decide),
          afterLegacy_append_cons ps 0xC7 _ hps (by decide)]
      by_cases hsib : md ≠ 3 ∧ rm = 4
      · obtain ⟨hmd3, hrm4⟩ := hsib
        subst hrm4
        have hmd4' : (md * 64 + reg * 8 + 4) / 64 % 4 = md := by omega
        have hrm8' : (md * 64 + reg * 8 + 4) % 8 = 4 := by omega
        have h66m : ¬ (0x66 : Nat) = md * 64 + reg * 8 + 4 := by omega
        simp [hmd4', hrm8', hmd3]
        rw [show ps.length + 1 + 1 = ps.length + 2 by omega]
        simp [mem66_take_append, h66m]
        omega
      · simp [hmd4, hrm8, hsib, mem66_take_append]
        omega
    | oB6 =>
      simp only [Opc.takesModrm, eq_self_iff_true, if_true, Bool.and_eq_true,
        decide_eq_true_eq] at hmodp
      obtain ⟨⟨⟨⟨⟨⟨hmd, hreg⟩, hrm⟩, -⟩, -⟩, -⟩, -⟩ := hmodp
      have hmd4 : (md * 64 + reg * 8 + rm) / 64 % 4 = md := by omega
      have hrm8 : (md * 64 + reg * 8 + rm) % 8 = rm := by omega
      simp only [Enc.encode, Opc.bytes, Opc.takesModrm, Enc.modrmByte, Option.toList,
        List.cons_append, List.nil_append, List.append_assoc, if_true]
      simp only [get_instruction_length]
      rw [countLegacy_append_cons ps 0x0F _ hps (by decide),
          afterLegacy_append_cons ps 0x0F _ hps (by decide)]
      simp [hmd4, hrm8]
      omega
    | oB7 =>
      simp only [Opc.takesModrm, eq_self_iff_true, if_true, Bool.and_eq_true,
        decide_eq_true_eq] at hmodp
      obtain ⟨⟨⟨⟨⟨⟨hmd, hreg⟩, hrm⟩, -⟩, -⟩, -⟩, -⟩ := hmodp
      have hmd4 : (md * 64 + reg * 8 + rm) / 64 % 4 = md := by omega
      have hrm8 : (md * 64 + reg * 8 + rm) % 8 = rm := by omega
      simp only [Enc.encode, Opc.bytes, Opc.takesModrm, Enc.modrmByte, Option.toList,
        List.cons_append, List.nil_append, List.append_assoc, if_true]
      simp only [get_instruction_length]
      rw [countLegacy_append_cons ps 0x0F _ hps (by decide),
          afterLegacy_append_cons ps 0x0F _ hps (by decide)]
      simp [hmd4, hrm8]
      omega
    | oBE =>
      simp only [Opc.takesModrm, eq_self_iff_true, if_true, Bool.and_eq_true,
        decide_eq_true_eq] at hmodp
      obtain ⟨⟨⟨⟨⟨⟨hmd, hreg⟩, hrm⟩, -⟩, -⟩, -⟩, -⟩ := hmodp
      have hmd4 : (md * 64 + reg * 8 + rm) / 64 % 4 = md := by omega
      have hrm8 : (md * 64 + reg * 8 + rm) % 8 = rm := by omega
      simp only [Enc.encode, Opc.bytes, Opc.takesModrm, Enc.modrmByte, Option.toList,
        List.cons_append, List.nil_append, List.append_assoc, if_true]
      simp only [get_instruction_length]
      rw [countLegacy_append_cons ps 0x0F _ hps (by decide),
          afterLegacy_append_cons ps 0x0F _ hps (by decide)]
      simp [hmd4, hrm8]
      omega
    | oBF =>
      simp only [Opc.takesModrm, eq_self_iff_true, if_true, Bool.and_eq_true,
        decide_eq_true_eq] at hmodp
      obtain ⟨⟨⟨⟨⟨⟨hmd, hreg⟩, hrm⟩, -⟩, -⟩, -⟩, -⟩ := hmodp
      have hmd4 : (md * 64 + reg * 8 + rm) / 64 % 4 = md := by omega
      have hrm8 : (md * 64 + reg * 8 + rm) % 8 = rm := by omega
      simp only [Enc.encode, Opc.bytes, Opc.takesModrm, Enc.modrmByte, Option.toList,
        List.cons_append, List.nil_append, List.append_assoc, if_true]
      simp only [get_instruction_length]
      rw [countLegacy_append_cons ps 0x0F _ hps (by decide),
          afterLegacy_append_cons ps 0x0F _ hps (by decide)]
      simp [hmd4, hrm8]
      omega
    | oAA =>
      simp only [Enc.encode, Opc.bytes, Opc.takesModrm, Enc.modrmByte, Option.toList,
        List.cons_append, List.nil_append, List.append_assoc, if_true]
      simp only [get_instruction_length]
      rw [countLegacy_append_cons ps 0xAA _ hps (by decide),
          afterLegacy_append_cons ps 0xAA _ hps (by decide)]
      simp
    | oAB =>
      simp only [Enc.encode, Opc.bytes, Opc.takesModrm, Enc.modrmByte, Option.toList,
        List.cons_append, List.nil_append, List.append_assoc, if_true]
      simp only [get_instruction_length]
      rw [countLegacy_append_cons ps 0xAB _ hps (by decide),
          afterLegacy_append_cons ps 0xAB _ hps (by decide)]
      simp
  | some r =>
    simp only [Bool.and_eq_true, decide_eq_true_eq] at hrexb
    obtain ⟨hr1, hr2⟩ := hrexb
    have hd1 : decide (0x40 ≤ r) = true := decide_eq_true hr1
    have hd2 : decide (r ≤ 0x4F) = true := decide_eq_true hr2
    have hrexc : (decide (0x40 ≤ r) && decide (r ≤ 0x4F)) = true := by
      simp [hd1, hd2]
    have hrl := rex_not_legacy r hr1 hr2
    cases opc with
    | o8A =>
      simp only [Opc.takesModrm, eq_self_iff_true, if_true, Bool.and_eq_true,
        decide_eq_true_eq] at hmodp
      obtain ⟨⟨⟨⟨⟨⟨hmd, hreg⟩, hrm⟩, -⟩, -⟩, -⟩, -⟩ := hmodp
      have hmd4 : (md * 64 + reg * 8 + rm) / 64 % 4 = md := by omega
      have hrm8 : (md * 64 + reg * 8 + rm) % 8 = rm := by omega
      simp only [Enc.encode, Opc.bytes, Opc.takesModrm, Enc.modrmByte, Option.toList,
        List.cons_append, List.nil_append, List.append_assoc, if_true]
      simp only [get_instruction_length]
      rw [countLegacy_append_cons ps r _ hps hrl,
          afterLegacy_append_cons ps r _ hps hrl]
      simp only [hrexc, if_true, List.tail_cons, List.getD_cons_zero, List.getD_cons_succ]
      simp [hmd4, hrm8]
      omega
    | o8B =>
      simp only [Opc.takesModrm, eq_self_iff_true, if_true, Bool.and_eq_true,
        decide_eq_true_eq] at hmodp
      obtain ⟨⟨⟨⟨⟨⟨hmd, hreg⟩, hrm⟩, -⟩, -⟩, -⟩, -⟩ := hmodp
      have hmd4 : (md * 64 + reg * 8 + rm) / 64 % 4 = md := by omega
      have hrm8 : (md * 64 + reg * 8 + rm) % 8 = rm := by omega
      simp only [Enc.encode, Opc.bytes, Opc.takesModrm, Enc.modrmByte, Option.toList,
        List.cons_append, List.nil_append, List.append_assoc, if_true]
      simp only [get_instruction_length]
      rw [countLegacy_append_cons ps r _ hps hrl,
          afterLegacy_append_cons ps r _ hps hrl]
      simp only [hrexc, if_true, List.tail_cons, List.getD_cons_zero, List.getD_cons_succ]
      simp [hmd4, hrm8]
      omega
    | o88 =>
      simp only [Opc.takesModrm, eq_self_iff_true, if_true, Bool.and_eq_true,
        decide_eq_true_eq] at hmodp
      obtain ⟨⟨⟨⟨⟨⟨hmd, hreg⟩, hrm⟩, -⟩, -⟩, -⟩, -⟩ := hmodp
      have hmd4 : (md * 64 + reg * 8 + rm) / 64 % 4 = md := by omega
      have hrm8 : (md * 64 + reg * 8 + rm) % 8 = rm := by omega
      simp only [Enc.encode, Opc.bytes, Opc.takesModrm, Enc.modrmByte, Option.toList,
        List.cons_append, List.nil_append, List.append_assoc, if_true]
      simp only [get_instruction_length]
      rw [countLegacy_append_cons ps r _ hps hrl,
          afterLegacy_append_cons ps r _ hps hrl]
      simp only [hrexc, if_true, List.tail_cons, List.getD_cons_zero, List.getD_cons_succ]
      simp [hmd4, hrm8]
      omega
    | o89 =>
      simp only [Opc.takesModrm, eq_self_iff_true, if_true, Bool.and_eq_true,
        decide_eq_true_eq] at hmodp
      obtain ⟨⟨⟨⟨⟨⟨hmd, hreg⟩, hrm⟩, -⟩, -⟩, -⟩, -⟩ := hmodp
      have hmd4 : (md * 64 + reg * 8 + rm) / 64 % 4 = md := by omega
      have hrm8 : (md * 64 + reg * 8 + rm) % 8 = rm := by omega
      simp only [Enc.encode, Opc.bytes, Opc.takesModrm, Enc.modrmByte, Option.toList,
        List.cons_append, List.nil_append, List.append_assoc, if_true]
      simp only [get_instruction_length]
      rw [countLegacy_append_cons ps r _ hps hrl,
          afterLegacy_append_cons ps r _ hps hrl]
      simp only [hrexc, if_true, List.tail_cons, List.getD_cons_zero, List.getD_cons_succ]
      simp [hmd4, hrm8]
      omega
    | oC6 =>
      simp only [Opc.takesModrm, eq_self_iff_true, if_true, Bool.and_eq_true,
        decide_eq_true_eq] at hmodp
      obtain ⟨⟨⟨⟨⟨⟨hmd, hreg⟩, hrm⟩, -⟩, -⟩, -⟩, -⟩ := hmodp
      have hmd4 : (md * 64 + reg * 8 + rm) / 64 % 4 = md := by omega
      have hrm8 : (md * 64 + reg * 8 + rm) % 8 = rm := by omega
      simp only [Enc.encode, Opc.bytes, Opc.takesModrm, Enc.modrmByte, Option.toList,
        List.cons_append, List.nil_append, List.append_assoc, if_true]
      simp only [get_instruction_length]
      rw [countLegacy_append_cons ps r _ hps hrl,
          afterLegacy_append_cons ps r _ hps hrl]
      simp only [hrexc, if_true, List.tail_cons, List.getD_cons_zero, List.getD_cons_succ]
      simp [hmd4, hrm8]
      omega
    | oC7 =>
      simp only [Opc.takesModrm, eq_self_iff_true, if_true, Bool.and_eq_true,
        decide_eq_true_eq] at hmodp
      obtain ⟨⟨⟨⟨⟨⟨hmd, hreg⟩, hrm⟩, -⟩, -⟩, -⟩, -⟩ := hmodp
      have hmd4 : (md * 64 + reg * 8 + rm) / 64 % 4 = md := by omega
      have hrm8 : (md * 64 + reg * 8 + rm) % 8 = rm := by omega
      have h66r : ¬ (0x66 : Nat) = r := by omega
      simp only [Enc.encode, Opc.bytes, Opc.takesModrm, Enc.modrmByte, Option.toList,
        List.cons_append, List.nil_append, List.append_assoc, if_true]
      simp only [get_instruction_length]
      rw [countLegacy_append_cons ps r _ hps hrl,
          afterLegacy_append_cons ps r _ hps hrl]
      by_cases hsib : md ≠ 3 ∧ rm = 4
      · obtain ⟨hmd3, hrm4⟩ := hsib
        subst hrm4
        have h66m : ¬ (0x66 : Nat) = md * 64 + reg * 8 + 4 := by omega
        simp only [hrexc, if_true, List.tail_cons, List.getD_cons_zero, List.getD_cons_succ]
        simp [hmd4, hrm8, hmd3]
        rw [show ps.length + 1 + 1 + 1 = ps.length + 3 by omega]
        simp [mem66_take_append, h66m, h66r]
        omega
      · simp only [hrexc, if_true, List.tail_cons, List.getD_cons_zero, List.getD_cons_succ]
        simp [hmd4, hrm8, hsib]
        rw [show ps.length + 1 + 1 = ps.length + 2 by omega]
        simp [mem66_take_append, h66r]
        omega
    | oB6 =>
      simp only [Opc.takesModrm, eq_self_iff_true, if_true, Bool.and_eq_true,
        decide_eq_true_eq] at hmodp
      obtain ⟨⟨⟨⟨⟨⟨hmd, hreg⟩, hrm⟩, -⟩, -⟩, -⟩, -⟩ := hmodp
      have hmd4 : (md * 64 + reg * 8 + rm) / 64 % 4 = md := by omega
      have hrm8 : (md * 64 + reg * 8 + rm) % 8 = rm := by omega
      simp only [Enc.encode, Opc.bytes, Opc.takesModrm, Enc.modrmByte, Option.toList,
        List.cons_append, List.nil_append, List.append_assoc, if_true]
      simp only [get_instruction_length]
      rw [countLegacy_append_cons ps r _ hps hrl,
          afterLegacy_append_cons ps r _ hps hrl]
      simp only [hrexc, if_true, List.tail_cons, List.getD_cons_zero, List.getD_cons_succ]
      simp [hmd4, hrm8]
      omega
    | oB7 =>
      simp only [Opc.takesModrm, eq_self_iff_true, if_true, Bool.and_eq_true,
        decide_eq_true_eq] at hmodp
      obtain ⟨⟨⟨⟨⟨⟨hmd, hreg⟩, hrm⟩, -⟩, -⟩, -⟩, -⟩ := hmodp
      have hmd4 : (md * 64 + reg * 8 + rm) / 64 % 4 = md := by omega
      have hrm8 : (md * 64 + reg * 8 + rm) % 8 = rm := by omega
      simp only [Enc.encode, Opc.bytes, Opc.takesModrm, Enc.modrmByte, Option.toList,
        List.cons_append, List.nil_append, List.append_assoc, if_true]
      simp only [get_instruction_length]
      rw [countLegacy_append_cons ps r _ hps hrl,
          afterLegacy_append_cons ps r _ hps hrl]
      simp only [hrexc, if_true, List.tail_cons, List.getD_cons_zero, List.getD_cons_succ]
      simp [hmd4, hrm8]
      omega
    | oBE =>
      simp only [Opc.takesModrm, eq_self_iff_true, if_true, Bool.and_eq_true,
        decide_eq_true_eq] at hmodp
      obtain ⟨⟨⟨⟨⟨⟨hmd, hreg⟩, hrm⟩, -⟩, -⟩, -⟩, -⟩ := hmodp
      have hmd4 : (md * 64 + reg * 8 + rm) / 64 % 4 = md := by omega
      have hrm8 : (md * 64 + reg * 8 + rm) % 8 = rm := by omega
      simp only [Enc.encode, Opc.bytes, Opc.takesModrm, Enc.modrmByte, Option.toList,
        List.cons_append, List.nil_append, List.append_assoc, if_true]
      simp only [get_instruction_length]
      rw [countLegacy_append_cons ps r _ hps hrl,
          afterLegacy_append_cons ps r _ hps hrl]
      simp only [hrexc, if_true, List.tail_cons, List.getD_cons_zero, List.getD_cons_succ]
      simp [hmd4, hrm8]
      omega
    | oBF =>
      simp only [Opc.takesModrm, eq_self_iff_true, if_true, Bool.and_eq_true,
        decide_eq_true_eq] at hmodp
      obtain ⟨⟨⟨⟨⟨⟨hmd, hreg⟩, hrm⟩, -⟩, -⟩, -⟩, -⟩ := hmodp
      have hmd4 : (md * 64 + reg * 8 + rm) / 64 % 4 = md := by omega
      have hrm8 : (md * 64 + reg * 8 + rm) % 8 = rm := by omega
      simp only [Enc.encode, Opc.bytes, Opc.takesModrm, Enc.modrmByte, Option.toList,
        List.cons_append, List.nil_append, List.append_assoc, if_true]
      simp only [get_instruction_length]
      rw [countLegacy_append_cons ps r _ hps hrl,
          afterLegacy_append_cons ps r _ hps hrl]
      simp only [hrexc, if_true, List.tail_cons, List.getD_cons_zero, List.getD_cons_succ]
      simp [hmd4, hrm8]
      omega
    | oAA =>
      simp only [Enc.encode, Opc.bytes, Opc.takesModrm, Enc.modrmByte, Option.toList,
        List.cons_append, List.nil_append, List.append_assoc, if_true]
      simp only [get_instruction_length]
      rw [countLegacy_append_cons ps r _ hps hrl,
          afterLegacy_append_cons ps r _ hps hrl]
      simp only [hrexc, if_true, List.tail_cons, List.getD_cons_zero, List.getD_cons_succ]
      simp
    | oAB =>
      simp only [Enc.encode, Opc.bytes, Opc.takesModrm, Enc.modrmByte, Option.toList,
        List.cons_append, List.nil_append, List.append_assoc, if_true]
      simp only [get_instruction_length]
      rw [countLegacy_append_cons ps r _ hps hrl,
          afterLegacy_append_cons ps r _ hps hrl]
      simp only [hrexc, if_true, List.tail_cons, List.getD_cons_zero, List.getD_cons_succ]
      simp

/-! ## Claim C3 -/

/-- C3 counterexample: the legal absolute-address load `8B 04 25 00 00 00 40`
(`mov eax, [0x40000000]`: ModR/M `04` selects a SIB byte, SIB `25` has
`base = 5`, which under `mod = 0` carries a 4-byte displacement) is a
well-formed 7-byte encoding, but `get_instruction_length` returns 3 — the
decoder never accounts for the SIB-with-`base=5` displacement. -/
theorem instruction_length_counterexample :
    (Enc.mk [] none Opc.o8B 0 0 4 (some 0x25) [0x00, 0x00, 0x00, 0x40] []).wf = true ∧
    (Enc.mk [] none Opc.o8B 0 0 4 (some 0x25) [0x00, 0x00, 0x00, 0x40] []).encode =
      [0x8B, 0x04, 0x25, 0x00, 0x00, 0x00, 0x40] ∧
    (Enc.mk [] none Opc.o8B 0 0 4 (some 0x25) [0x00, 0x00, 0x00, 0x40] []).encode.length
      = 7 ∧
    get_instruction_length [0x8B, 0x04, 0x25, 0x00, 0x00, 0x00, 0x40] = 3 ∧
    (3 : Nat) ≠ 7 := by
  refine ⟨by decide, by decide, by decide, by decide, by decide⟩

/-- C3 amended: for every legal encoding of every opcode in the supported
set, except the SIB form with `base = 5` under `mod = 0` (whose missing
4-byte displacement the counterexample exhibits) and except a `C7` that
combines an operand-size prefix with REX.W (where the code takes the
16-bit immediate although REX.W keeps it 32-bit), the computed length
equals the true machine instruction length — the byte count of the
encoding — regardless of what bytes follow the instruction. -/
theorem instruction_length_correct (e : Enc) (rest : List Nat) (hwf : e.wf = true)
    (h1 : ¬(e.md = 0 ∧ e.rm = 4 ∧ e.sibBase = 5))
    (h2 : ¬(e.opc = Opc.oC7 ∧ e.rexW = true ∧ (0x66 : Nat) ∈ e.legacy)) :
    get_instruction_length (e.encode ++ rest) = e.encode.length := by
  rw [gil_on_enc e rest hwf]
  obtain ⟨ps, rex, opc, md, reg, rm, sib, disp, imm⟩ := e
  simp only [Enc.wf, Bool.and_eq_true] at hwf
  obtain ⟨⟨hps, hrexb⟩, hmodp⟩ := hwf
  simp only [Enc.sibBase] at h1
  cases opc with
  | o8A =>
    simp only [Opc.takesModrm, eq_self_iff_true, if_true, Bool.and_eq_true,
      decide_eq_true_eq, beq_iff_eq] at hmodp
    obtain ⟨⟨⟨⟨⟨⟨hmd, hreg⟩, hrm⟩, hsibiff⟩, hsb⟩, hdisp⟩, himm⟩ := hmodp
    simp only [Enc.trueDispLen, Enc.trueImmLen, Enc.sibBase] at hdisp himm
    cases sib with
    | none =>
      have hX : ¬(md ≠ 3 ∧ rm = 4) := by
        rintro ⟨h3, h4⟩
        simp [h3, h4] at hsibiff
      simp only [Option.getD_none] at h1 hdisp
      simp [Enc.encode, Opc.bytes, Opc.takesModrm, Enc.modrmByte, Option.toList,
        hdisp, himm, hX]
      split_ifs <;> omega
    | some s =>
      simp only [Option.isSome_some] at hsibiff
      replace hsibiff := hsibiff.symm
      rw [Bool.and_eq_true, decide_eq_true_eq, decide_eq_true_eq] at hsibiff
      simp only [Option.getD_some] at h1 hdisp
      simp [Enc.encode, Opc.bytes, Opc.takesModrm, Enc.modrmByte, Option.toList,
        hdisp, himm, hsibiff]
      split_ifs <;> omega
  | o8B =>
    simp only [Opc.takesModrm, eq_self_iff_true, if_true, Bool.and_eq_true,
      decide_eq_true_eq, beq_iff_eq] at hmodp
    obtain ⟨⟨⟨⟨⟨⟨hmd, hreg⟩, hrm⟩, hsibiff⟩, hsb⟩, hdisp⟩, himm⟩ := hmodp
    simp only [Enc.trueDispLen, Enc.trueImmLen, Enc.sibBase] at hdisp himm
    cases sib with
    | none =>
      have hX : ¬(md ≠ 3 ∧ rm = 4) := by
        rintro ⟨h3, h4⟩
        simp [h3, h4] at hsibiff
      simp only [Option.getD_none] at h1 hdisp
      simp [Enc.encode, Opc.bytes, Opc.takesModrm, Enc.modrmByte, Option.toList,
        hdisp, himm, hX]
      split_ifs <;> omega
    | some s =>
      simp only [Option.isSome_some] at hsibiff
      replace hsibiff := hsibiff.symm
      rw [Bool.and_eq_true, decide_eq_true_eq, decide_eq_true_eq] at hsibiff
      simp only [Option.getD_some] at h1 hdisp
      simp [Enc.encode, Opc.bytes, Opc.takesModrm, Enc.modrmByte, Option.toList,
        hdisp, himm, hsibiff]
      split_ifs <;> omega
  | o88 =>
    simp only [Opc.takesModrm, eq_self_iff_true, if_true, Bool.and_eq_true,
      decide_eq_true_eq, beq_iff_eq] at hmodp
    obtain ⟨⟨⟨⟨⟨⟨hmd, hreg⟩, hrm⟩, hsibiff⟩, hsb⟩, hdisp⟩, himm⟩ := hmodp
    simp only [Enc.trueDispLen, Enc.trueImmLen, Enc.sibBase] at hdisp himm
    cases sib with
    | none =>
      have hX : ¬(md ≠ 3 ∧ rm = 4) := by
        rintro ⟨h3, h4⟩
        simp [h3, h4] at hsibiff
      simp only [Option.getD_none] at h1 hdisp
      simp [Enc.encode, Opc.bytes, Opc.takesModrm, Enc.modrmByte, Option.toList,
        hdisp, himm, hX]
      split_ifs <;> omega
    | some s =>
      simp only [Option.isSome_some] at hsibiff
      replace hsibiff := hsibiff.symm
      rw [Bool.and_eq_true, decide_eq_true_eq, decide_eq_true_eq] at hsibiff
      simp only [Option.getD_some] at h1 hdisp
      simp [Enc.encode, Opc.bytes, Opc.takesModrm, Enc.modrmByte, Option.toList,
        hdisp, himm, hsibiff]
      split_ifs <;> omega
  | o89 =>
    simp only [Opc.takesModrm, eq_self_iff_true, if_true, Bool.and_eq_true,
      decide_eq_true_eq, beq_iff_eq] at hmodp
    obtain ⟨⟨⟨⟨⟨⟨hmd, hreg⟩, hrm⟩, hsibiff⟩, hsb⟩, hdisp⟩, himm⟩ := hmodp
    simp only [Enc.trueDispLen, Enc.trueImmLen, Enc.sibBase] at hdisp himm
    cases sib with
    | none =>
      have hX : ¬(md ≠ 3 ∧ rm = 4) := by
        rintro ⟨h3, h4⟩
        simp [h3, h4] at hsibiff
      simp only [Option.getD_none] at h1 hdisp
      simp [Enc.encode, Opc.bytes, Opc.takesModrm, Enc.modrmByte, Option.toList,
        hdisp, himm, hX]
      split_ifs <;> omega
    | some s =>
      simp only [Option.isSome_some] at hsibiff
      replace hsibiff := hsibiff.symm
      rw [Bool.and_eq_true, decide_eq_true_eq, decide_eq_true_eq] at hsibiff
      simp only [Option.getD_some] at h1 hdisp
      simp [Enc.encode, Opc.bytes, Opc.takesModrm, Enc.modrmByte, Option.toList,
        hdisp, himm, hsibiff]
      split_ifs <;> omega
  | oC6 =>
    simp only [Opc.takesModrm, eq_self_iff_true, if_true, Bool.and_eq_true,
      decide_eq_true_eq, beq_iff_eq] at hmodp
    obtain ⟨⟨⟨⟨⟨⟨hmd, hreg⟩, hrm⟩, hsibiff⟩, hsb⟩, hdisp⟩, himm⟩ := hmodp
    simp only [Enc.trueDispLen, Enc.trueImmLen, Enc.sibBase] at hdisp himm
    cases sib with
    | none =>
      have hX : ¬(md ≠ 3 ∧ rm = 4) := by
        rintro ⟨h3, h4⟩
        simp [h3, h4] at hsibiff
      simp only [Option.getD_none] at h1 hdisp
      simp [Enc.encode, Opc.bytes, Opc.takesModrm, Enc.modrmByte, Option.toList,
        hdisp, himm, hX]
      split_ifs <;> omega
    | some s =>
      simp only [Option.isSome_some] at hsibiff
      replace hsibiff := hsibiff.symm
      rw [Bool.and_eq_true, decide_eq_true_eq, decide_eq_true_eq] at hsibiff
      simp only [Option.getD_some] at h1 hdisp
      simp [Enc.encode, Opc.bytes, Opc.takesModrm, Enc.modrmByte, Option.toList,
        hdisp, himm, hsibiff]
      split_ifs <;> omega
  | oC7 =>
    simp only [Opc.takesModrm, eq_self_iff_true, if_true, Bool.and_eq_true,
      decide_eq_true_eq, beq_iff_eq] at hmodp
    obtain ⟨⟨⟨⟨⟨⟨hmd, hreg⟩, hrm⟩, hsibiff⟩, hsb⟩, hdisp⟩, himm⟩ := hmodp
    simp only [Enc.trueDispLen, Enc.trueImmLen, Enc.sibBase, Enc.rexW] at hdisp himm
    simp only [Enc.rexW, eq_self_iff_true, true_and] at h2
    have himm2 : imm.length = (if (0x66 : Nat) ∈ ps then 2 else 4) := by
      cases rex with
      | none => simpa using himm
      | some r =>
        by_cases hw : r / 8 % 2 = 1
        · have hmem : ¬ (0x66 : Nat) ∈ ps := by
            intro hm
            exact h2 ⟨by simp [hw], hm⟩
          simp only [decide_eq_true hw, eq_self_iff_true, if_true] at himm
          simp [himm, hmem]
        · have hwd : decide (r / 8 % 2 = 1) = false := decide_eq_false hw
          simp only [hwd] at himm
          simpa using himm
    cases sib with
    | none =>
      have hX : ¬(md ≠ 3 ∧ rm = 4) := by
        rintro ⟨h3, h4⟩
        simp [h3, h4] at hsibiff
      simp only [Option.getD_none] at h1 hdisp
      simp [Enc.encode, Opc.bytes, Opc.takesModrm, Enc.modrmByte, Option.toList,
        hdisp, himm2, hX]
      split_ifs <;> omega
    | some s =>
      simp only [Option.isSome_some] at hsibiff
      replace hsibiff := hsibiff.symm
      rw [Bool.and_eq_true, decide_eq_true_eq, decide_eq_true_eq] at hsibiff
      simp only [Option.getD_some] at h1 hdisp
      simp [Enc.encode, Opc.bytes, Opc.takesModrm, Enc.modrmByte, Option.toList,
        hdisp, himm2, hsibiff]
      split_ifs <;> omega
  | oB6 =>
    simp only [Opc.takesModrm, eq_self_iff_true, if_true, Bool.and_eq_true,
      decide_eq_true_eq, beq_iff_eq] at hmodp
    obtain ⟨⟨⟨⟨⟨⟨hmd, hreg⟩, hrm⟩, hsibiff⟩, hsb⟩, hdisp⟩, himm⟩ := hmodp
    simp only [Enc.trueDispLen, Enc.trueImmLen, Enc.sibBase] at hdisp himm
    cases sib with
    | none =>
      have hX : ¬(md ≠ 3 ∧ rm = 4) := by
        rintro ⟨h3, h4⟩
        simp [h3, h4] at hsibiff
      simp only [Option.getD_none] at h1 hdisp
      simp [Enc.encode, Opc.bytes, Opc.takesModrm, Enc.modrmByte, Option.toList,
        hdisp, himm, hX]
      split_ifs <;> omega
    | some s =>
      simp only [Option.isSome_some] at hsibiff
      replace hsibiff := hsibiff.symm
      rw [Bool.and_eq_true, decide_eq_true_eq, decide_eq_true_eq] at hsibiff
      simp only [Option.getD_some] at h1 hdisp
      simp [Enc.encode, Opc.bytes, Opc.takesModrm, Enc.modrmByte, Option.toList,
        hdisp, himm, hsibiff]
      split_ifs <;> omega
  | oB7 =>
    simp only [Opc.takesModrm, eq_self_iff_true, if_true, Bool.and_eq_true,
      decide_eq_true_eq, beq_iff_eq] at hmodp
    obtain ⟨⟨⟨⟨⟨⟨hmd, hreg⟩, hrm⟩, hsibiff⟩, hsb⟩, hdisp⟩, himm⟩ := hmodp
    simp only [Enc.trueDispLen, Enc.trueImmLen, Enc.sibBase] at hdisp himm
    cases sib with
    | none =>
      have hX : ¬(md ≠ 3 ∧ rm = 4) := by
        rintro ⟨h3, h4⟩
        simp [h3, h4] at hsibiff
      simp only [Option.getD_none] at h1 hdisp
      simp [Enc.encode, Opc.bytes, Opc.takesModrm, Enc.modrmByte, Option.toList,
        hdisp, himm, hX]
      split_ifs <;> omega
    | some s =>
      simp only [Option.isSome_some] at hsibiff
      replace hsibiff := hsibiff.symm
      rw [Bool.and_eq_true, decide_eq_true_eq, decide_eq_true_eq] at hsibiff
      simp only [Option.getD_some] at h1 hdisp
      simp [Enc.encode, Opc.bytes, Opc.takesModrm, Enc.modrmByte, Option.toList,
        hdisp, himm, hsibiff]
      split_ifs <;> omega
  | oBE =>
    simp only [Opc.takesModrm, eq_self_iff_true, if_true, Bool.and_eq_true,
      decide_eq_true_eq, beq_iff_eq] at hmodp
    obtain ⟨⟨⟨⟨⟨⟨hmd, hreg⟩, hrm⟩, hsibiff⟩, hsb⟩, hdisp⟩, himm⟩ := hmodp
    simp only [Enc.trueDispLen, Enc.trueImmLen, Enc.sibBase] at hdisp himm
    cases sib with
    | none =>
      have hX : ¬(md ≠ 3 ∧ rm = 4) := by
        rintro ⟨h3, h4⟩
        simp [h3, h4] at hsibiff
      simp only [Option.getD_none] at h1 hdisp
      simp [Enc.encode, Opc.bytes, Opc.takesModrm, Enc.modrmByte, Option.toList,
        hdisp, himm, hX]
      split_ifs <;> omega
    | some s =>
      simp only [Option.isSome_some] at hsibiff
      replace hsibiff := hsibiff.symm
      rw [Bool.and_eq_true, decide_eq_true_eq, decide_eq_true_eq] at hsibiff
      simp only [Option.getD_some] at h1 hdisp
      simp [Enc.encode, Opc.bytes, Opc.takesModrm, Enc.modrmByte, Option.toList,
        hdisp, himm, hsibiff]
      split_ifs <;> omega
  | oBF =>
    simp only [Opc.takesModrm, eq_self_iff_true, if_true, Bool.and_eq_true,
      decide_eq_true_eq, beq_iff_eq] at hmodp
    obtain ⟨⟨⟨⟨⟨⟨hmd, hreg⟩, hrm⟩, hsibiff⟩, hsb⟩, hdisp⟩, himm⟩ := hmodp
    simp only [Enc.trueDispLen, Enc.trueImmLen, Enc.sibBase] at hdisp himm
    cases sib with
    | none =>
      have hX : ¬(md ≠ 3 ∧ rm = 4) := by
        rintro ⟨h3, h4⟩
        simp [h3, h4] at hsibiff
      simp only [Option.getD_none] at h1 hdisp
      simp [Enc.encode, Opc.bytes, Opc.takesModrm, Enc.modrmByte, Option.toList,
        hdisp, himm, hX]
      split_ifs <;> omega
    | some s =>
      simp only [Option.isSome_some] at hsibiff
      replace hsibiff := hsibiff.symm
      rw [Bool.and_eq_true, decide_eq_true_eq, decide_eq_true_eq] at hsibiff
      simp only [Option.getD_some] at h1 hdisp
      simp [Enc.encode, Opc.bytes, Opc.takesModrm, Enc.modrmByte, Option.toList,
        hdisp, himm, hsibiff]
      split_ifs <;> omega
  | oAA =>
    simp only [Opc.takesModrm, Bool.and_eq_true, beq_iff_eq, if_false,
      Bool.false_eq_true] at hmodp
    obtain ⟨⟨⟨⟨⟨hmd0, hreg0⟩, hrm0⟩, hsibn⟩, hdispn⟩, himmn⟩ := hmodp
    simp only [List.isEmpty_iff] at hdispn himmn
    subst hdispn himmn
    simp [Enc.encode, Opc.bytes, Opc.takesModrm]
    omega
  | oAB =>
    simp only [Opc.takesModrm, Bool.and_eq_true, beq_iff_eq, if_false,
      Bool.false_eq_true] at hmodp
    obtain ⟨⟨⟨⟨⟨hmd0, hreg0⟩, hrm0⟩, hsibn⟩, hdispn⟩, himmn⟩ := hmodp
    simp only [List.isEmpty_iff] at hdispn himmn
    subst hdispn himmn
    simp [Enc.encode, Opc.bytes, Opc.takesModrm]
    omega

/-- Witness for C3 (amended): the 7-byte encoding `66 40 C7 41 12 34 56`
(`mov word [rcx+0x12], 0x5634` with a redundant REX), whose computed and
true lengths agree. -/
theorem instruction_length_correct_witness :
    get_instruction_length
        ((Enc.mk [0x66] (some 0x40) Opc.oC7 1 0 1 none [0x12] [0x34, 0x56]).encode ++ []) =
      (Enc.mk [0x66] (some 0x40) Opc.oC7 1 0 1 none [0x12] [0x34, 0x56]).encode.length :=
  instruction_length_correct (Enc.mk [0x66] (some 0x40) Opc.oC7 1 0 1 none [0x12] [0x34, 0x56])
    [] (by decide) (by decide) (by decide)

end NewICD3
